import Mathlib

/-!
Verification of the core of `twit-transcript-archiver`
(`process_transcripts.py`): the HTML sanitizer, the utterance
segmenter, the date normalizer, and the chunk packer.

The embedding works over `List Char` (Python `str` values are sequences
of unicode code points, as are Lean `String.data` lists).  Python's
`re` regular expressions are embedded by a small backtracking engine
(`reMatch`) whose alternation order, greedy/lazy repetition and capture
semantics follow CPython's `re` module; each compiled pattern of the
source file is transcribed node by node.  Character classes `\d`, `\s`,
`[A-Z]` are modelled over their ASCII/Latin-1 ranges (the archive's
content is ASCII; astral unicode members of these classes are not
modelled).
-/

namespace TwitArchive

set_option maxRecDepth 200000

set_option synthInstance.maxHeartbeats 1000000

set_option synthInstance.maxSize 4000

/-- Python `\s` / `str.strip()` whitespace, over the ASCII/Latin-1 range. -/
def pySpace (c : Char) : Bool :=
  c = ' ' || c = '\t' || c = '\n' || c = '\r' ||
  c.val = 11 || c.val = 12 || c.val = 28 || c.val = 29 ||
  c.val = 30 || c.val = 31 || c.val = 133 || c.val = 160

/-- Python ASCII decimal digit (`\d`). -/
def pyDigit (c : Char) : Bool := '0' ≤ c && c ≤ '9'

/-- Python `[A-Z]`. -/
def pyUpper (c : Char) : Bool := 'A' ≤ c && c ≤ 'Z'

/-- Python `[a-zA-Z]`. -/
def pyAlpha (c : Char) : Bool := pyUpper c || ('a' ≤ c && c ≤ 'z')

/-- ASCII lowercasing, for the `re.IGNORECASE` patterns of the source. -/
def lowerChar (c : Char) : Char := if pyUpper c then Char.ofNat (c.toNat + 32) else c

/-- Model of Python `str.strip()`: drop whitespace from both ends. -/
def pyStrip (l : List Char) : List Char :=
  ((l.dropWhile pySpace).reverse.dropWhile pySpace).reverse

/-- Helper for `collapseWS`: the flag records whether the previous
character was whitespace (so a whitespace run emits one space). -/
def collapseGo : Bool → List Char → List Char
  | _, [] => []
  | prevWs, c :: t =>
    if pySpace c then
      if prevWs then collapseGo true t else ' ' :: collapseGo true t
    else c :: collapseGo false t

/-- Model of `re.sub(r'\s+', ' ', s)`: every maximal whitespace run
becomes a single space. -/
def collapseWS (l : List Char) : List Char := collapseGo false l

/-- Helper for `pySplit`: accumulates the current word reversed. -/
def pySplitGo : List Char → List Char → List (List Char)
  | acc, [] => if acc.isEmpty then [] else [acc.reverse]
  | acc, c :: t =>
    if pySpace c then
      if acc.isEmpty then pySplitGo [] t else acc.reverse :: pySplitGo [] t
    else pySplitGo (c :: acc) t

/-- Model of Python `str.split()` with no argument: split on whitespace
runs, discarding empty pieces. -/
def pySplit (l : List Char) : List (List Char) := pySplitGo [] l

/-- Split on a single character (Python `str.split('\n')`), keeping
empty pieces. -/
def splitOnChar (sep : Char) : List Char → List (List Char)
  | [] => [[]]
  | c :: t =>
    if c = sep then [] :: splitOnChar sep t
    else match splitOnChar sep t with
      | [] => [[c]]
      | h :: r => (c :: h) :: r

/-- Model of Python `str.replace(pat, repl)` for a non-empty pattern:
replace all non-overlapping occurrences, scanning left to right. -/
def replaceAllGo (pat repl : List Char) : Nat → List Char → List Char
  | 0, s => s
  | fuel + 1, s =>
    if pat ≠ [] ∧ pat.isPrefixOf s then
      repl ++ replaceAllGo pat repl fuel (s.drop pat.length)
    else match s with
      | [] => []
      | c :: t => c :: replaceAllGo pat repl fuel t

/-- Entry point of `replaceAllGo` with sufficient fuel. -/
def replaceAll (pat repl s : List Char) : List Char :=
  replaceAllGo pat repl (s.length + 1) s

/-- Model of Python `str.lstrip(':')`. -/
def lstripColon (l : List Char) : List Char := l.dropWhile (fun c => c = ':')

/-- Count of non-whitespace characters of a string (the measure used by
the no-text-loss property). -/
def nonWsCount (l : List Char) : Nat := (l.filter (fun c => !pySpace c)).length

/-! ## A backtracking regex engine

`RE` is the fragment of Python `re` used by `process_transcripts.py`:
character-class repetitions with greedy or lazy preference, ordered
alternation, concatenation, a greedy star of a general subexpression,
and numbered capturing groups.  `reMatch` explores alternatives in
exactly CPython's backtracking order: alternation tries the left branch
first, a greedy repetition tries longer matches first, a lazy one
shorter first. -/

inductive RE : Type where
  | eps : RE
  | rep (p : Char → Bool) (lo : Nat) (hi : Option Nat) (greedy : Bool) : RE
  | cat (a b : RE) : RE
  | alt (a b : RE) : RE
  | star (a : RE) : RE
  | group (n : Nat) (a : RE) : RE

/-- Captured groups: group number paired with the captured text; the
most recent capture is first, and a group absent from the list did not
participate in the match (Python `group(n) is None`). -/
abbrev GroupMap : Type := List (Nat × List Char)

/-- Look up a capture group (Python `match.group(n)`). -/
def glook (g : GroupMap) (n : Nat) : Option (List Char) :=
  (List.find? (fun x => x.1 = n) g).map (fun x => x.2)

/-- Length of the maximal prefix run satisfying `p`. -/
def runLen (p : Char → Bool) : List Char → Nat
  | [] => 0
  | c :: t => if p c then runLen p t + 1 else 0

/-- Candidate consumption counts for a class repetition, in the order
backtracking tries them (greedy: longest first; lazy: shortest first). -/
def repCands (p : Char → Bool) (lo : Nat) (hi : Option Nat) (greedy : Bool)
    (s : List Char) : List Nat :=
  let cap := match hi with
    | none => runLen p s
    | some h => min h (runLen p s)
  if cap < lo then []
  else
    let asc := (List.range (cap + 1 - lo)).map (fun i => i + lo)
    if greedy then asc.reverse else asc

/-- Structural size of a regex, used to bound recursion depth. -/
def reSize : RE → Nat
  | .eps => 1
  | .rep _ _ _ _ => 1
  | .cat a b => reSize a + reSize b + 1
  | .alt a b => reSize a + reSize b + 1
  | .star a => reSize a + 1
  | .group _ a => reSize a + 1

/-- The backtracking matcher, in continuation-passing style.  The
continuation receives the remaining input and the captures collected on
the current path; the first alternative (in Python's preference order)
whose continuation succeeds wins.  `fuel` bounds the recursion depth;
callers supply enough for any match (each `star` iteration consumes at
least one character, enforced by the progress guard, as CPython does for
repeated empty matches). -/
def reMatch {α : Type} :
    Nat → RE → List Char → GroupMap → (List Char → GroupMap → Option α) → Option α
  | 0, _, _, _, _ => none
  | fuel + 1, re, s, g, k =>
    match re with
    | .eps => k s g
    | .rep p lo hi greedy =>
        (repCands p lo hi greedy s).findSome? (fun n => k (s.drop n) g)
    | .cat a b => reMatch fuel a s g (fun s1 g1 => reMatch fuel b s1 g1 k)
    | .alt a b =>
        match reMatch fuel a s g k with
        | some r => some r
        | none => reMatch fuel b s g k
    | .star a =>
        match reMatch fuel a s g
            (fun s1 g1 =>
              if s1.length < s.length then reMatch fuel (.star a) s1 g1 k else none) with
        | some r => some r
        | none => k s g
    | .group n a =>
        reMatch fuel a s g
          (fun s1 g1 => k s1 ((n, s.take (s.length - s1.length)) :: g1))

/-- Model of Python `pattern.match(s)` (anchored at the start, the rest
of the string may remain): the captures and the unconsumed suffix. -/
def pyMatch (r : RE) (s : List Char) : Option (GroupMap × List Char) :=
  reMatch ((reSize r + 2) * (s.length + 2)) r s [] (fun rest g => some (g, rest))

/-- Model of Python `pattern.search(s)`: try `match` at each start
position, left to right. -/
def pySearch (r : RE) : List Char → Option (GroupMap × List Char)
  | [] => pyMatch r []
  | c :: t =>
    match pyMatch r (c :: t) with
    | some x => some x
    | none => pySearch r t

/-- Worker for `pySub`: scan left to right, replacing each leftmost
non-overlapping match (CPython advances one character past a
zero-width match after inserting the replacement). -/
def pySubGo (r : RE) (f : GroupMap → List Char) : Nat → List Char → List Char
  | 0, s => s
  | fuel + 1, s =>
    match pyMatch r s with
    | some (g, rest) =>
      if rest.length = s.length then
        match s with
        | [] => f g
        | c :: t => f g ++ c :: pySubGo r f fuel t
      else f g ++ pySubGo r f fuel rest
    | none =>
      match s with
      | [] => []
      | c :: t => c :: pySubGo r f fuel t

/-- Model of Python `pattern.sub(repl, s)` with a replacement function
of the captures. -/
def pySub (r : RE) (f : GroupMap → List Char) (s : List Char) : List Char :=
  pySubGo r f (s.length + 1) s

/-- Single-character regex. -/
def RE.ch (c : Char) : RE := .rep (fun x => x = c) 1 (some 1) true

/-- Single-character class regex. -/
def RE.cls (p : Char → Bool) : RE := .rep p 1 (some 1) true

/-- Case-sensitive literal. -/
def RE.lit (l : List Char) : RE := l.foldr (fun c r => .cat (.ch c) r) .eps

/-- Case-insensitive literal (for the `re.IGNORECASE` patterns). -/
def RE.litCI (l : List Char) : RE :=
  l.foldr (fun c r => .cat (.cls (fun x => lowerChar x = lowerChar c)) r) .eps

/-- Greedy optional (`X?`). -/
def RE.opt (a : RE) : RE := .alt a .eps

/-- Concatenation of a list of regexes. -/
def cats (l : List RE) : RE := l.foldr .cat .eps

/-- Ordered alternation of a non-empty list of regexes (first wins). -/
def alts : List RE → RE
  | [] => .eps
  | [r] => r
  | r :: t => .alt r (alts t)

/-- Greedy `\s*`. -/
def wsStar : RE := .rep pySpace 0 none true

/-- Greedy `\s+`. -/
def wsPlus : RE := .rep pySpace 1 none true

/-- Greedy `\d+`. -/
def digPlus : RE := .rep pyDigit 1 none true

/-- Greedy `.*` under `re.DOTALL` (any character). -/
def dotStarAll : RE := .rep (fun _ => true) 0 none true

/-- Greedy `.*` without `re.DOTALL` (`.` excludes newline). -/
def dotStar : RE := .rep (fun c => c ≠ '\n') 0 none true

/-- Lazy `.*?` under `re.DOTALL`. -/
def dotStarAllLazy : RE := .rep (fun _ => true) 0 none false

/-- Lazy `.+?` without `re.DOTALL`. -/
def dotPlusLazy : RE := .rep (fun c => c ≠ '\n') 1 none false

/-! ## The five metadata patterns of the segmenter

Transcribed from `METADATA_REGEXES` (process_transcripts.py lines
25–28 and 207–214), node by node. -/

/-- The timestamp shape `\d+:\d+(?::\d+)?`. -/
def tsCore : RE :=
  cats [digPlus, RE.ch ':', digPlus, RE.opt (cats [RE.ch ':', digPlus])]

/-- Pattern 1, `^(\d+:\d+(?::\d+)?)\s*(?:-\s*)?([^:]+)(?::\s*(.*))?`
(timestamp, then optional dash, then speaker-or-text, then optional
colon and content). -/
def patTimestampLed : RE :=
  cats [RE.group 1 tsCore,
        wsStar,
        RE.opt (cats [RE.ch '-', wsStar]),
        RE.group 2 (.rep (fun c => c ≠ ':') 1 none true),
        RE.opt (cats [RE.ch ':', wsStar, RE.group 3 dotStar])]

/-- Pattern 2, `^(.+?)\s*\[(\d+:\d+(?::\d+)?)\s*\]\s*:?\s*(.*)`. -/
def patSpeakerBracket : RE :=
  cats [RE.group 1 dotPlusLazy, wsStar, RE.ch '[', RE.group 2 tsCore, wsStar,
        RE.ch ']', wsStar, RE.opt (RE.ch ':'), wsStar, RE.group 3 dotStar]

/-- Pattern 3, `^(.+?)\s*\(\s*(\d+:\d+(?::\d+)?)\s*\)\s*:?\s*(.*)`. -/
def patSpeakerParen : RE :=
  cats [RE.group 1 dotPlusLazy, wsStar, RE.ch '(', wsStar, RE.group 2 tsCore,
        wsStar, RE.ch ')', wsStar, RE.opt (RE.ch ':'), wsStar, RE.group 3 dotStar]

/-- Pattern 4, `^\(\s*(\d+:\d+(?::\d+)?)\s*\)\s*:?\s*(.*)`. -/
def patParenTimestamp : RE :=
  cats [RE.ch '(', wsStar, RE.group 1 tsCore, wsStar, RE.ch ')',
        wsStar, RE.opt (RE.ch ':'), wsStar, RE.group 2 dotStar]

/-- The character class `[a-zA-Z'.\-]` of `SPEAKER_NAME_RE`. -/
def nameChar (c : Char) : Bool := pyAlpha c || c = Char.ofNat 39 || c = '.' || c = '-'

/-- Greedy `\*{0,2}`. -/
def starUpTo2 : RE := .rep (fun c => c = '*') 0 (some 2) true

/-- Pattern 5 (`SPEAKER_NAME_RE`, line 28):
`^\*{0,2}([A-Z][a-zA-Z'.\-]+(?:\s+[A-Z][a-zA-Z'.\-]+)*)\*{0,2}\s*:\s*\*{0,2}\s*(.*)`. -/
def SPEAKER_NAME_RE : RE :=
  cats [starUpTo2,
        RE.group 1 (cats [RE.cls pyUpper, .rep nameChar 1 none true,
                          .star (cats [wsPlus, RE.cls pyUpper, .rep nameChar 1 none true])]),
        starUpTo2, wsStar, RE.ch ':', wsStar, starUpTo2, wsStar, RE.group 2 dotStar]

/-! ## The utterance segmenter

Embedding of the context-tracking pass of `html_to_markdown`
(process_transcripts.py lines 191–280).  The Python loop carries
`current_timestamp`, `current_speaker`, an open `buffer` and
`current_prefix` across blocks; `final_lines` is modelled structurally
as (prefix, content) pairs, rendered by `renderLine` exactly as the
f-string `f"{current_prefix} - {content}"` does (a `None` prefix would
render as the string "None").  `current_prefix` is named `cur_pfx`
here. -/

structure SegState : Type where
  cur_ts : Option (List Char)
  cur_speaker : Option (List Char)
  buffer : List (List Char)
  cur_pfx : Option (List Char)
  out : List (Option (List Char) × List Char)

/-- Python truthiness of an optional string (`if current_timestamp:`):
false for `None` and for the empty string. -/
def truthy : Option (List Char) → Bool
  | none => false
  | some s => !s.isEmpty

/-- Model of Python `" ".join(...)`. -/
def joinSp : List (List Char) → List Char
  | [] => []
  | [b] => b
  | b :: c :: t => b ++ ' ' :: joinSp (c :: t)

/-- The `flush_buffer` closure (lines 198–204): join the buffer with
single spaces, collapse whitespace, strip; emit a finalized utterance
under the current prefix when non-empty. -/
def flush_buffer (st : SegState) : SegState :=
  if st.buffer.isEmpty then st
  else
    let content := pyStrip (collapseWS (joinSp st.buffer))
    if content.isEmpty then { st with buffer := [] }
    else { st with buffer := [], out := st.out ++ [(st.cur_pfx, content)] }

/-- The meta-prefix of lines 257–266: `EP:<num> Date:<ymd>` plus a
`TS:` segment when the timestamp is truthy, then ` - <speaker>` when
the speaker is truthy, else a bare ` -`. -/
def buildPfx (ep : Nat) (ymd : List Char) (ts sp : Option (List Char)) : List Char :=
  let parts := ["EP:".data ++ (toString ep).data, "Date:".data ++ ymd] ++
    (if truthy ts then ["TS:".data ++ ts.getD []] else [])
  let pfx := joinSp parts
  if truthy sp then pfx ++ " - ".data ++ sp.getD [] else pfx ++ " -".data

/-- Lines 254–255: when the matched content starts with a colon, the
leading colons are removed and the result stripped. -/
def cleanContent (content : List Char) : List Char :=
  if content.headD ' ' = ':' then pyStrip (lstripColon content) else content

/-- Common tail of a matched block (lines 254–272): strip leading
colons from the content, rebuild the prefix from the updated state,
flush the previous utterance, adopt the new prefix and seed the buffer
with the content when non-empty.  `u` is (new timestamp, new speaker,
content). -/
def finishMatched (ep : Nat) (ymd : List Char) (st : SegState)
    (u : Option (List Char) × Option (List Char) × List Char) : SegState :=
  let content := cleanContent u.2.2
  let pfx := buildPfx ep ymd u.1 u.2.1
  let st1 := flush_buffer { st with cur_ts := u.1, cur_speaker := u.2.1 }
  { st1 with cur_pfx := some pfx, buffer := if content.isEmpty then [] else [content] }

/-- Line 232: `potential_speaker = match.group(2).strip()`. -/
def p1Candidate (g : GroupMap) : List Char := pyStrip ((glook g 2).getD [])

/-- Line 233: the speaker heuristic — the candidate is shorter than 40
characters and contains none of `.`, `!`, `?`. -/
def p1SpeakerOK (g : GroupMap) : Prop :=
  (p1Candidate g).length < 40 ∧
  ¬ ((p1Candidate g).any fun c => c = '.' || c = '!' || c = '?') = true

instance (g : GroupMap) : Decidable (p1SpeakerOK g) :=
  inferInstanceAs (Decidable (_ ∧ _))

/-- Line 237: the content when the candidate is rejected —
`potential_speaker + (f": {match.group(3)}" if match.group(3) else
"")`. -/
def p1AltContent (g : GroupMap) : List Char :=
  p1Candidate g ++
    (match glook g 3 with
      | some c => if c.isEmpty then [] else ": ".data ++ c
      | none => [])

/-- State update for a block matching Pattern 1 (lines 229–237):
timestamp updates from group 1; if the stripped group 2 passes the
speaker heuristic it becomes the speaker and group 3 the content,
otherwise the speaker is unchanged and the content is group 2 re-joined
with group 3.  The `line[0].isdigit()` guard of line 230 is kept
(group 1 makes it always true). -/
def pattern1Update (st : SegState) (line : List Char) (g : GroupMap) :
    Option (List Char) × Option (List Char) × List Char :=
  if pyDigit (line.headD ' ') then
    if p1SpeakerOK g then
      (glook g 1, some (p1Candidate g), pyStrip ((glook g 3).getD []))
    else
      (glook g 1, st.cur_speaker, p1AltContent g)
  else (st.cur_ts, st.cur_speaker, line)

/-- One iteration of the block loop (lines 216–276): strip the line,
skip it when empty, try the five patterns in priority order (first
match wins), apply that pattern's state update, otherwise treat the
block as a continuation appended to the open buffer. -/
def segLine (ep : Nat) (ymd : List Char) (st : SegState) (line0 : List Char) : SegState :=
  let line := pyStrip line0
  if line.isEmpty then st
  else
    match pyMatch patTimestampLed line with
    | some (g, _) => finishMatched ep ymd st (pattern1Update st line g)
    | none =>
      match pyMatch patSpeakerBracket line with
      | some (g, _) =>
          finishMatched ep ymd st
            (some (pyStrip ((glook g 2).getD [])), some (pyStrip ((glook g 1).getD [])),
              pyStrip ((glook g 3).getD []))
      | none =>
        match pyMatch patSpeakerParen line with
        | some (g, _) =>
            finishMatched ep ymd st
              (some (pyStrip ((glook g 2).getD [])), some (pyStrip ((glook g 1).getD [])),
                pyStrip ((glook g 3).getD []))
        | none =>
          match pyMatch patParenTimestamp line with
          | some (g, _) =>
              finishMatched ep ymd st
                (some (pyStrip ((glook g 1).getD [])), st.cur_speaker,
                  pyStrip ((glook g 2).getD []))
          | none =>
            match pyMatch SPEAKER_NAME_RE line with
            | some (g, _) =>
                finishMatched ep ymd st
                  (st.cur_ts, some (pyStrip ((glook g 1).getD [])),
                    pyStrip ((glook g 2).getD []))
            | none =>
              let pfx := buildPfx ep ymd st.cur_ts st.cur_speaker
              { st with cur_pfx := some (st.cur_pfx.getD pfx),
                        buffer := st.buffer ++ [line] }

/-- The initial segmenter state (lines 193–196). -/
def initSeg : SegState := ⟨none, none, [], none, []⟩

/-- The segmenter over a block sequence: fold the loop body, then the
final `flush_buffer()` of line 278; result is the structured
(prefix, utterance text) list. -/
def segmentPairs (ep : Nat) (ymd : String) (blocks : List String) :
    List (Option (List Char) × List Char) :=
  (flush_buffer (blocks.foldl (fun st b => segLine ep ymd.data st b.data) initSeg)).out

/-- Rendering of one finalized line, `f"{current_prefix} - {content}"`. -/
def renderLine (pc : Option (List Char) × List Char) : String :=
  String.mk ((pc.1.getD "None".data) ++ " - ".data ++ pc.2)

/-- The segmenter's formatted output lines (`final_lines`). -/
def segmentLines (ep : Nat) (ymd : String) (blocks : List String) : List String :=
  (segmentPairs ep ymd blocks).map renderLine

/-! ## The HTML sanitizer

Embedding of `html_to_markdown`'s text-cleaning passes (lines
133–189).  Patterns with a backreference `\1` on a two-way literal
group (`<(script|style).*?</\1>`, `<(b|strong)...`, `<(i|em)...`) are
expanded into the equivalent ordered alternation of their two
instances, preserving alternation order and capture numbering. -/

/-- The character class `[^>]`. -/
def isNotGt (c : Char) : Bool := c ≠ '>'

/-- Greedy `[^>]*`. -/
def nonGt : RE := .rep isNotGt 0 none true

/-- Greedy `[^>]+`. -/
def nonGtPlus : RE := .rep isNotGt 1 none true

/-- Line 35: `<(script|style).*?</\1>` under `re.DOTALL`. -/
def SCRIPT_STYLE_RE : RE :=
  .alt (cats [RE.lit "<script".data, dotStarAllLazy, RE.lit "</script>".data])
       (cats [RE.lit "<style".data, dotStarAllLazy, RE.lit "</style>".data])

/-- Line 136: the noise-tag pattern (span, font, o:p, body, html, head,
meta, link, style, script, center, st1:*, shape, path, imagedata, v:*)
under `re.IGNORECASE`; its replacement in the source is the empty
string. -/
def NOISE_TAG_RE : RE :=
  cats [RE.ch '<', RE.opt (RE.ch '/'),
        alts [RE.litCI "span".data, RE.litCI "font".data, RE.litCI "o:p".data,
              RE.litCI "body".data, RE.litCI "html".data, RE.litCI "head".data,
              RE.litCI "meta".data, RE.litCI "link".data, RE.litCI "style".data,
              RE.litCI "script".data, RE.litCI "center".data,
              cats [RE.litCI "st1:".data, nonGtPlus],
              RE.litCI "shape".data, RE.litCI "path".data,
              RE.litCI "imagedata".data,
              cats [RE.litCI "v:".data, nonGtPlus]],
        nonGt, RE.ch '>']

/-- Lines 139–140: the AI-disclaimer pattern under
`re.DOTALL | re.IGNORECASE`. -/
def DISCLAIMER_RE : RE :=
  cats [RE.opt (RE.ch '*'),
        RE.litCI "Please be advised this transcript is AI-generated".data,
        dotStarAllLazy,
        alts [RE.litCI "ad-supported version of the show".data,
              RE.litCI "approximate times".data,
              RE.litCI "word for word".data],
        RE.opt (RE.ch '.'), RE.opt (RE.ch '*')]

/-- Line 36: `<h1[^>]*>(.*?)</h1>` under `re.DOTALL`. -/
def H1_RE : RE :=
  cats [RE.lit "<h1".data, nonGt, RE.ch '>', RE.group 1 dotStarAllLazy,
        RE.lit "</h1>".data]

/-- Line 37: `<h2[^>]*>(.*?)</h2>` under `re.DOTALL`. -/
def H2_RE : RE :=
  cats [RE.lit "<h2".data, nonGt, RE.ch '>', RE.group 1 dotStarAllLazy,
        RE.lit "</h2>".data]

/-- Line 38: `<h3[^>]*>(.*?)</h3>` under `re.DOTALL`. -/
def H3_RE : RE :=
  cats [RE.lit "<h3".data, nonGt, RE.ch '>', RE.group 1 dotStarAllLazy,
        RE.lit "</h3>".data]

/-- Line 39: `<p[^>]*>(.*?)</p>` under `re.DOTALL`. -/
def P_RE : RE :=
  cats [RE.lit "<p".data, nonGt, RE.ch '>', RE.group 1 dotStarAllLazy,
        RE.lit "</p>".data]

/-- Line 40: `<br\s*/?>`. -/
def BR_RE : RE := cats [RE.lit "<br".data, wsStar, RE.opt (RE.ch '/'), RE.ch '>']

/-- Line 41: `<(b|strong)[^>]*>(.*?)</\1>` under `re.DOTALL`. -/
def BOLD_RE : RE :=
  .alt (cats [RE.lit "<b".data, nonGt, RE.ch '>', RE.group 2 dotStarAllLazy,
              RE.lit "</b>".data])
       (cats [RE.lit "<strong".data, nonGt, RE.ch '>', RE.group 2 dotStarAllLazy,
              RE.lit "</strong>".data])

/-- Line 42: `<(i|em)[^>]*>(.*?)</\1>` under `re.DOTALL`. -/
def ITALIC_RE : RE :=
  .alt (cats [RE.lit "<i".data, nonGt, RE.ch '>', RE.group 2 dotStarAllLazy,
              RE.lit "</i>".data])
       (cats [RE.lit "<em".data, nonGt, RE.ch '>', RE.group 2 dotStarAllLazy,
              RE.lit "</em>".data])

/-- Line 43: `<a\s+(?:[^>]*?\s+)?href="([^"]*)"[^>]*>(.*?)</a>` under
`re.DOTALL`. -/
def A_RE : RE :=
  cats [RE.lit "<a".data, wsPlus,
        RE.opt (cats [.rep (fun c => c ≠ '>') 0 none false, wsPlus]),
        RE.lit "href=".data, RE.ch '"',
        RE.group 1 (.rep (fun c => c ≠ '"') 0 none true), RE.ch '"',
        nonGt, RE.ch '>', RE.group 2 dotStarAllLazy, RE.lit "</a>".data]

/-- Line 161: the structural-tag pattern (p, br, div, tr, table, ul,
ol, li, h1, h2, h3) under `re.IGNORECASE`, replaced by the
`__PARA__` marker. -/
def STRUCT_TAG_RE : RE :=
  cats [RE.ch '<', RE.opt (RE.ch '/'),
        alts [RE.litCI "p".data, RE.litCI "br".data, RE.litCI "div".data,
              RE.litCI "tr".data, RE.litCI "table".data, RE.litCI "ul".data,
              RE.litCI "ol".data, RE.litCI "li".data, RE.litCI "h1".data,
              RE.litCI "h2".data, RE.litCI "h3".data],
        nonGt, RE.ch '>']

/-- Line 47: `TAG_RE = <[^>]+>`; every remaining tag, replaced by a
single space at line 167. -/
def TAG_RE : RE := cats [RE.ch '<', nonGtPlus, RE.ch '>']

/-- Lines 152–157: anchors become markdown links only for `/`,
`http://` or `https://` targets; otherwise only the inner text is
kept (each padded by one space on both sides). -/
def sanitize_link (url content : List Char) : List Char :=
  if "/".data.isPrefixOf url || "http://".data.isPrefixOf url ||
      "https://".data.isPrefixOf url then
    " [".data ++ content ++ "](".data ++ url ++ ") ".data
  else " ".data ++ content ++ " ".data

/-- The sanitizer pipeline of `html_to_markdown` (lines 133–189), from
raw body markup to the ordered list of non-empty stripped text blocks
handed to the segmenter. -/
def sanitize_blocks (html : String) : List String :=
  let t := html.data
  let t := pySub SCRIPT_STYLE_RE (fun _ => []) t
  let t := pySub NOISE_TAG_RE (fun _ => []) t
  let t := pySub DISCLAIMER_RE (fun _ => []) t
  let t := pySub H1_RE (fun g => "# ".data ++ (glook g 1).getD [] ++ "\n\n".data) t
  let t := pySub H2_RE (fun g => "## ".data ++ (glook g 1).getD [] ++ "\n\n".data) t
  let t := pySub H3_RE (fun g => "### ".data ++ (glook g 1).getD [] ++ "\n\n".data) t
  let t := pySub P_RE (fun g => (glook g 1).getD [] ++ "\n\n".data) t
  let t := pySub BR_RE (fun _ => "\n".data) t
  let t := pySub BOLD_RE (fun g => "**".data ++ (glook g 2).getD [] ++ "**".data) t
  let t := pySub ITALIC_RE (fun g => "*".data ++ (glook g 2).getD [] ++ "*".data) t
  let t := pySub STRUCT_TAG_RE (fun _ => "__PARA__".data) t
  let t := pySub A_RE (fun g => sanitize_link ((glook g 1).getD []) ((glook g 2).getD [])) t
  let t := pySub TAG_RE (fun _ => [' ']) t
  let t := replaceAll "&nbsp;".data [' '] t
  let t := replaceAll "&amp;".data ['&'] t
  let t := replaceAll "&lt;".data ['<'] t
  let t := replaceAll "&gt;".data ['>'] t
  let t := replaceAll "&quot;".data [Char.ofNat 34] t
  let t := replaceAll "&#39;".data [Char.ofNat 39] t
  let t := replaceAll "__PARA__".data ['\n'] t
  ((splitOnChar '\n' t).map pyStrip).filterMap
    (fun b => if b.isEmpty then none else some (String.mk b))

/-- The whole of `html_to_markdown` (lines 129–280): empty input short
circuits to the empty string; otherwise sanitize into blocks, segment,
and join the finalized lines with blank lines. -/
def html_to_markdown (html : String) (ep : Nat) (ymd : String) : String :=
  if html.isEmpty then ""
  else "\n\n".intercalate (segmentLines ep ymd (sanitize_blocks html))

/-! ## Date normalization

Embedding of `extract_year` (lines 79–85) and `parse_date_ymd` (lines
87–114).  `datetime.strptime` is modelled the way CPython's
`_strptime` implements it: the format string becomes a regex (literal
characters kept, whitespace runs becoming `\s+`, `%B`/`%b`/`%A`
becoming case-insensitive name alternations, `%d` the alternation
`3[01]|[12]\d|0[1-9]|[1-9]`, `%Y` exactly four digits), matched
case-insensitively from the start with the whole string required to be
consumed, followed by `datetime`'s range validation of the day against
the month (with leap years) and of the year (1–9999). -/

/-- Line 21: `YEAR_RE = (\d{4})`. -/
def YEAR_RE : RE := RE.group 1 (.rep pyDigit 4 (some 4) true)

/-- Decimal digits to a number (Python `int`). -/
def digitsToNat (l : List Char) : Nat :=
  l.foldl (fun n c => n * 10 + (c.toNat - 48)) 0

/-- Lines 79–85: first 4-digit run anywhere in the byline, else 0. -/
def extract_year (s : String) : Nat :=
  match pySearch YEAR_RE s.data with
  | some (g, _) => digitsToNat ((glook g 1).getD [])
  | none => 0

/-- Line 96: the ordinal-suffix pattern `(\d+)(st|nd|rd|th)`. -/
def ORDINAL_RE : RE :=
  cats [RE.group 1 digPlus,
        RE.group 2 (alts [RE.lit "st".data, RE.lit "nd".data,
                          RE.lit "rd".data, RE.lit "th".data])]

/-- Line 96: `re.sub(r'(\d+)(st|nd|rd|th)', r'\1', date_str)`. -/
def stripOrdinals (s : List Char) : List Char :=
  pySub ORDINAL_RE (fun g => (glook g 1).getD []) s

/-- Full month names of the C locale (`%B`). -/
def fullMonths : List String :=
  ["January", "February", "March", "April", "May", "June", "July",
   "August", "September", "October", "November", "December"]

/-- Abbreviated month names of the C locale (`%b`). -/
def abbrMonths : List String :=
  ["Jan", "Feb", "Mar", "Apr", "May", "Jun", "Jul", "Aug", "Sep",
   "Oct", "Nov", "Dec"]

/-- Full weekday names of the C locale (`%A`). -/
def fullWeekdays : List String :=
  ["Monday", "Tuesday", "Wednesday", "Thursday", "Friday", "Saturday", "Sunday"]

/-- ASCII-lowercase a string (for the case-insensitive name match). -/
def lowerList (l : List Char) : List Char := l.map lowerChar

/-- Case-insensitive alternation of a name list, captured as group `n`
(no name of either list is a prefix of another of the same list, so
alternation order is immaterial). -/
def nameAlt (n : Nat) (names : List String) : RE :=
  RE.group n (alts (names.map (fun s => RE.litCI s.data)))

/-- The `%d` directive's regex `3[01]|[12]\d|0[1-9]|[1-9]`, captured as
group 5. -/
def dayRE : RE :=
  RE.group 5 (alts
    [cats [RE.ch '3', RE.cls (fun c => c = '0' || c = '1')],
     cats [RE.cls (fun c => c = '1' || c = '2'), RE.cls pyDigit],
     cats [RE.ch '0', RE.cls (fun c => '1' ≤ c && c ≤ '9')],
     RE.cls (fun c => '1' ≤ c && c ≤ '9')])

/-- The `%Y` directive's regex `\d\d\d\d`, captured as group 6. -/
def yearRE : RE := RE.group 6 (.rep pyDigit 4 (some 4) true)

/-- Format `"%B %d %Y"`. -/
def fmtFullDMY : RE := cats [nameAlt 4 fullMonths, wsPlus, dayRE, wsPlus, yearRE]

/-- Format `"%b %d %Y"`. -/
def fmtAbbrDMY : RE := cats [nameAlt 4 abbrMonths, wsPlus, dayRE, wsPlus, yearRE]

/-- Format `"%A, %B %d, %Y"`. -/
def fmtWeekdayFull : RE :=
  cats [nameAlt 7 fullWeekdays, RE.ch ',', wsPlus, nameAlt 4 fullMonths, wsPlus,
        dayRE, RE.ch ',', wsPlus, yearRE]

/-- Format `"%B %d, %Y"`. -/
def fmtFullDcY : RE :=
  cats [nameAlt 4 fullMonths, wsPlus, dayRE, RE.ch ',', wsPlus, yearRE]

/-- Format `"%b %d, %Y"`. -/
def fmtAbbrDcY : RE :=
  cats [nameAlt 4 abbrMonths, wsPlus, dayRE, RE.ch ',', wsPlus, yearRE]

/-- A strptime match must consume the whole string ("unconverted data
remains" otherwise); backtracking preferences are those of the regex
itself. -/
def matchFull (r : RE) (s : List Char) : Option GroupMap :=
  match pyMatch r s with
  | some (g, rest) => if rest.isEmpty then some g else none
  | none => none

/-- Month number from its captured name. -/
def monthFromName (names : List String) (cap : List Char) : Option Nat :=
  (names.findIdx? (fun n => lowerList n.data = lowerList cap)).map (fun i => i + 1)

/-- Gregorian leap year (as `datetime` uses). -/
def isLeap (y : Nat) : Bool := y % 4 = 0 && (y % 100 ≠ 0 || y % 400 = 0)

/-- Days in a month (as `datetime` validates). -/
def daysInMonth (y m : Nat) : Nat :=
  if m = 2 then (if isLeap y then 29 else 28)
  else if m = 4 ∨ m = 6 ∨ m = 9 ∨ m = 11 then 30
  else 31

/-- One `datetime.strptime` attempt with one format: match fully, read
month/day/year, and apply the `datetime` constructor's validation. -/
def tryFormat (f : RE × List String) (s : List Char) : Option (Nat × Nat × Nat) :=
  match matchFull f.1 s with
  | none => none
  | some g =>
    match monthFromName f.2 ((glook g 4).getD []) with
    | none => none
    | some m =>
      let d := digitsToNat ((glook g 5).getD [])
      let y := digitsToNat ((glook g 6).getD [])
      if 1 ≤ y ∧ 1 ≤ d ∧ d ≤ daysInMonth y m then some (y, m, d) else none

/-- The ordered format list of lines 99–105 with each format's month
name table. -/
def strptimeFormats : List (RE × List String) :=
  [(fmtFullDMY, fullMonths), (fmtAbbrDMY, abbrMonths),
   (fmtWeekdayFull, fullMonths), (fmtFullDcY, fullMonths),
   (fmtAbbrDcY, abbrMonths)]

/-- Zero-padded two-digit rendering (strftime `%y`, `%m`, `%d`). -/
def pad2 (n : Nat) : String := if n < 10 then "0" ++ toString n else toString n

/-- The `dt.strftime("%y-%m-%d")` of line 110. -/
def fmtYmd (t : Nat × Nat × Nat) : String :=
  pad2 (t.1 % 100) ++ "-" ++ pad2 t.2.1 ++ "-" ++ pad2 t.2.2

/-- Lines 87–114: empty input and unparseable input give the sentinel
"00-01-01"; otherwise ordinal suffixes are stripped and the five
formats are tried in order, the first success winning. -/
def parse_date_ymd (s : String) : String :=
  if s.isEmpty then "00-01-01"
  else
    match strptimeFormats.findSome? (fun f => tryFormat f (stripOrdinals s.data)) with
    | some t => fmtYmd t
    | none => "00-01-01"

/-! ## The chunk packer

Embedding of `process_prefix` (lines 344–444, named `process_pfx` here)
and its helper `write_current_chunk` (lines 382–404), over the list of
already-parsed episode results.  The Python state keeps the formatted
episode texts in `current_chunk_content`; the embedding keeps the
episodes themselves, the written text being recoverable as the
concatenation of `full_episode_text` over them. -/

/-- Line 17: operational word limit. -/
def MAX_WORDS : Nat := 250000

/-- Line 18: operational byte limit (100 MB). -/
def MAX_BYTES : Nat := 100 * 1024 * 1024

/-- One parsed episode result (the dict built in `_parse_single_file`). -/
structure Episode : Type where
  ep_num : Nat
  title : String
  date_str : String
  year : Nat
  content : String
  deriving DecidableEq

/-- Line 414: the two-line title/date episode header. -/
def episode_header (e : Episode) : String :=
  "# Episode: " ++ e.title ++ "\n**Date:** " ++ e.date_str ++ "\n\n"

/-- Line 415: content followed by the horizontal-rule separator. -/
def episode_body (e : Episode) : String := e.content ++ "\n\n---\n\n"

/-- Line 416: the full formatted episode text. -/
def full_episode_text (e : Episode) : String := episode_header e ++ episode_body e

/-- Line 418: `ep_words = len(content.split())` — words of the body
content only. -/
def ep_words (e : Episode) : Nat := (pySplit e.content.data).length

/-- Line 419: `ep_bytes = len(full_episode_text.encode('utf-8'))` —
UTF-8 size of the full formatted text. -/
def ep_bytes (e : Episode) : Nat := (full_episode_text e).utf8ByteSize

/-- One written output chunk: its file name, member episodes in order,
and final counter values. -/
structure Chunk : Type where
  name : String
  episodes : List Episode
  words : Nat
  bytes : Nat
  deriving DecidableEq

/-- The packer's loop state (lines 375–380). -/
structure PackState : Type where
  word_count : Nat
  byte_count : Nat
  chunk : List Episode
  chunk_start_ep : Option Nat
  chunk_end_ep : Option Nat
  cur_year : Option Nat
  out : List Chunk

/-- Python truthiness of the optional year (`if by_year and
current_year:`): `None` and `0` are falsy. -/
def truthyYear : Option Nat → Bool
  | none => false
  | some y => y ≠ 0

/-- Rendering of an optional number in an f-string (`None` when absent). -/
def optNatStr : Option Nat → String
  | none => "None"
  | some n => toString n

/-- Lines 387–393: the output file name. -/
def chunk_name (pfx : String) (by_year : Bool) (st : PackState) : String :=
  if by_year ∧ truthyYear st.cur_year then
    pfx ++ "_Transcripts_" ++ optNatStr st.cur_year ++ "_" ++
      optNatStr st.chunk_start_ep ++ "_" ++ optNatStr st.chunk_end_ep ++ ".md"
  else
    pfx ++ "_Transcripts_" ++ optNatStr st.chunk_start_ep ++ "-" ++
      optNatStr st.chunk_end_ep ++ ".md"

/-- Lines 382–404 (`write_current_chunk`): emit the chunk if non-empty
and reset content, counters and start marker (the end marker and year
persist, as in the source). -/
def write_current_chunk (pfx : String) (by_year : Bool) (st : PackState) : PackState :=
  if st.chunk.isEmpty then st
  else
    { st with
      out := st.out ++ [⟨chunk_name pfx by_year st, st.chunk, st.word_count, st.byte_count⟩],
      chunk := [], word_count := 0, byte_count := 0, chunk_start_ep := none }

/-- Lines 421–429: the chunk-splitting decision — word limit exceeded,
else byte limit exceeded, else (under `by_year`) an established year
that differs from the episode's. -/
def split_needed (by_year : Bool) (st : PackState) (e : Episode) : Bool :=
  if MAX_WORDS < st.word_count + ep_words e ∨ MAX_BYTES < st.byte_count + ep_bytes e then
    true
  else if by_year ∧ st.cur_year ≠ none ∧ st.cur_year ≠ some e.year then true
  else false

/-- Lines 434–441: append the episode to the open chunk, set the start
marker when absent, and advance counters, end marker and year. -/
def addEpisode (st : PackState) (e : Episode) : PackState :=
  { st with
    chunk_start_ep :=
      if st.chunk_start_ep = none then some e.ep_num else st.chunk_start_ep,
    chunk := st.chunk ++ [e],
    word_count := st.word_count + ep_words e,
    byte_count := st.byte_count + ep_bytes e,
    chunk_end_ep := some e.ep_num,
    cur_year := some e.year }

/-- Lines 406–441: one iteration of the packing loop — close the
current chunk when needed, then add the episode. -/
def packStep (pfx : String) (by_year : Bool) (st : PackState) (e : Episode) : PackState :=
  addEpisode
    (if split_needed by_year st e then write_current_chunk pfx by_year st else st) e

/-- The initial packer state (lines 375–380). -/
def initPack : PackState := ⟨0, 0, [], none, none, none, []⟩

/-- The whole packing pass of `process_prefix` over the sorted parsed
results, including the final flush of line 444. -/
def process_pfx (pfx : String) (by_year : Bool) (eps : List Episode) : List Chunk :=
  (write_current_chunk pfx by_year (eps.foldl (packStep pfx by_year) initPack)).out

/-! ## Packer invariants -/

/-- An episode whose body words or formatted bytes alone exceed a limit. -/
def oversized (e : Episode) : Prop :=
  MAX_WORDS < ep_words e ∨ MAX_BYTES < ep_bytes e

instance (e : Episode) : Decidable (oversized e) := by
  unfold oversized; infer_instance

/-- The well-formedness of an emitted chunk. -/
def chunkOK (by_year : Bool) (c : Chunk) : Prop :=
  c.words = (c.episodes.map ep_words).sum ∧
  c.bytes = (c.episodes.map ep_bytes).sum ∧
  (2 ≤ c.episodes.length → c.words ≤ MAX_WORDS ∧ c.bytes ≤ MAX_BYTES) ∧
  (∀ e ∈ c.episodes, oversized e → c.episodes = [e]) ∧
  (by_year = true → ∀ e1 ∈ c.episodes, ∀ e2 ∈ c.episodes, e1.year = e2.year)

/-- The loop invariant of the packing pass. -/
def packInv (by_year : Bool) (st : PackState) : Prop :=
  st.word_count = (st.chunk.map ep_words).sum ∧
  st.byte_count = (st.chunk.map ep_bytes).sum ∧
  (2 ≤ st.chunk.length → st.word_count ≤ MAX_WORDS ∧ st.byte_count ≤ MAX_BYTES) ∧
  (∀ e ∈ st.chunk, oversized e → st.chunk = [e]) ∧
  (by_year = true → ∀ e ∈ st.chunk, st.cur_year = some e.year) ∧
  (∀ c ∈ st.out, chunkOK by_year c)

/-- Episodes placed so far: flushed chunks then the open chunk. -/
def outEps (st : PackState) : List Episode :=
  (st.out.map Chunk.episodes).flatten ++ st.chunk

theorem packInv_init (by_year : Bool) : packInv by_year initPack := by
  refine ⟨rfl, rfl, ?_, ?_, ?_, ?_⟩ <;> simp [initPack]

theorem write_chunk_spec (pfx : String) (b : Bool) (st : PackState)
    (h : packInv b st) :
    packInv b (write_current_chunk pfx b st) ∧
    (write_current_chunk pfx b st).chunk = [] ∧
    (write_current_chunk pfx b st).word_count = 0 ∧
    (write_current_chunk pfx b st).byte_count = 0 ∧
    outEps (write_current_chunk pfx b st) = outEps st := by
  obtain ⟨hw, hb, hbound, hover, hyear, hout⟩ := h
  unfold write_current_chunk
  by_cases hc : st.chunk.isEmpty
  · have hnil : st.chunk = [] := List.isEmpty_iff.mp hc
    rw [if_pos hc]
    refine ⟨⟨hw, hb, hbound, hover, hyear, hout⟩, hnil, ?_, ?_, rfl⟩
    · rw [hw, hnil]; simp
    · rw [hb, hnil]; simp
  · rw [if_neg hc]
    refine ⟨⟨by simp, by simp, by simp, by simp, fun _ => by simp, ?_⟩, rfl, rfl, rfl, ?_⟩
    · intro c hcmem
      simp only [List.mem_append, List.mem_singleton] at hcmem
      rcases hcmem with hold | hnew
      · exact hout c hold
      · subst hnew
        refine ⟨hw, hb, hbound, hover, fun hby e1 h1 e2 h2 => ?_⟩
        have k1 := hyear hby e1 h1
        have k2 := hyear hby e2 h2
        exact Option.some.inj (k1.symm.trans k2)
    · unfold outEps
      simp

theorem addEpisode_fresh_inv (b : Bool) (e : Episode) (st1 : PackState)
    (h1 : packInv b st1) (hck : st1.chunk = [])
    (hwc : st1.word_count = 0) (hbc : st1.byte_count = 0) :
    packInv b (addEpisode st1 e) := by
  obtain ⟨_, _, _, _, _, hout1⟩ := h1
  unfold addEpisode
  refine ⟨?_, ?_, ?_, ?_, ?_, ?_⟩
  · simp [hck, hwc]
  · simp [hck, hbc]
  · intro hlen
    simp only [hck, List.nil_append, List.length_singleton] at hlen
    omega
  · intro x hx _
    simp only [hck, List.nil_append, List.mem_singleton] at hx
    subst hx
    simp [hck]
  · intro _ x hx
    simp only [hck, List.nil_append, List.mem_singleton] at hx
    subst hx
    rfl
  · exact hout1

theorem addEpisode_outEps (e : Episode) (st1 : PackState) :
    outEps (addEpisode st1 e) = outEps st1 ++ [e] := by
  unfold addEpisode outEps
  simp

theorem packStep_spec (pfx : String) (b : Bool) (st : PackState) (e : Episode)
    (h : packInv b st) :
    packInv b (packStep pfx b st e) ∧
    outEps (packStep pfx b st e) = outEps st ++ [e] := by
  obtain ⟨hw, hb, hbound, hover, hyear, hout⟩ := h
  unfold packStep
  by_cases hsn : split_needed b st e
  · rw [if_pos hsn]
    obtain ⟨hinv1, hck, hwc, hbc, hoe⟩ :=
      write_chunk_spec pfx b st ⟨hw, hb, hbound, hover, hyear, hout⟩
    refine ⟨addEpisode_fresh_inv b e _ hinv1 hck hwc hbc, ?_⟩
    rw [addEpisode_outEps, hoe]
  · rw [if_neg hsn]
    have h1 : ¬ (MAX_WORDS < st.word_count + ep_words e ∨
        MAX_BYTES < st.byte_count + ep_bytes e) := by
      intro hcon
      apply hsn
      unfold split_needed
      rw [if_pos hcon]
    have h2 : ¬ (b = true ∧ st.cur_year ≠ none ∧ st.cur_year ≠ some e.year) := by
      intro hcon
      apply hsn
      unfold split_needed
      rw [if_neg h1, if_pos hcon]
    push_neg at h1
    obtain ⟨hle1, hle2⟩ := h1
    refine ⟨⟨?_, ?_, ?_, ?_, ?_, hout⟩, addEpisode_outEps e st⟩
    · unfold addEpisode; simp [hw]
    · unfold addEpisode; simp [hb]
    · intro _; exact ⟨hle1, hle2⟩
    · intro x hx hov
      exfalso
      unfold addEpisode at hx
      simp only [List.mem_append, List.mem_singleton] at hx
      rcases hx with hxc | hxe
      · have hcx := hover x hxc hov
        rcases hov with hovw | hovb
        · have hxw : st.word_count = ep_words x := by rw [hw, hcx]; simp
          rw [hxw] at hle1
          exact absurd hle1 (not_le.mpr (lt_of_lt_of_le hovw (Nat.le_add_right _ _)))
        · have hxb : st.byte_count = ep_bytes x := by rw [hb, hcx]; simp
          rw [hxb] at hle2
          exact absurd hle2 (not_le.mpr (lt_of_lt_of_le hovb (Nat.le_add_right _ _)))
      · subst hxe
        rcases hov with hovw | hovb
        · exact absurd hle1 (not_le.mpr (lt_of_lt_of_le hovw (Nat.le_add_left _ _)))
        · exact absurd hle2 (not_le.mpr (lt_of_lt_of_le hovb (Nat.le_add_left _ _)))
    · intro hby x hx
      unfold addEpisode at hx ⊢
      simp only [List.mem_append, List.mem_singleton] at hx
      rcases hx with hxc | hxe
      · have hcy := hyear hby x hxc
        have hne : st.cur_year ≠ none := by rw [hcy]; simp
        have hsome : st.cur_year = some e.year := by
          by_contra hne2
          exact h2 ⟨hby, hne, hne2⟩
        rw [hcy] at hsome
        simp only [Option.some.injEq] at hsome ⊢
        exact hsome.symm
      · subst hxe; rfl

theorem packFold_spec (pfx : String) (b : Bool) (eps : List Episode) :
    ∀ st : PackState, packInv b st →
      packInv b (eps.foldl (packStep pfx b) st) ∧
      outEps (eps.foldl (packStep pfx b) st) = outEps st ++ eps := by
  induction eps with
  | nil => intro st h; exact ⟨h, by simp⟩
  | cons e t ih =>
    intro st h
    obtain ⟨h1, h2⟩ := packStep_spec pfx b st e h
    obtain ⟨h3, h4⟩ := ih (packStep pfx b st e) h1
    refine ⟨by simpa using h3, ?_⟩
    simp only [List.foldl_cons]
    rw [h4, h2]
    simp

theorem process_pfx_chunkOK (pfx : String) (b : Bool) (eps : List Episode) :
    ∀ c ∈ process_pfx pfx b eps, chunkOK b c := by
  intro c hc
  obtain ⟨hinv, _⟩ := packFold_spec pfx b eps initPack (packInv_init b)
  obtain ⟨hinv2, _, _, _, _⟩ :=
    write_chunk_spec pfx b (eps.foldl (packStep pfx b) initPack) hinv
  exact hinv2.2.2.2.2.2 c hc

theorem process_pfx_eps (pfx : String) (b : Bool) (eps : List Episode) :
    ((process_pfx pfx b eps).map Chunk.episodes).flatten = eps := by
  obtain ⟨hinv, houteps⟩ := packFold_spec pfx b eps initPack (packInv_init b)
  obtain ⟨_, hck, _, _, hoe⟩ :=
    write_chunk_spec pfx b (eps.foldl (packStep pfx b) initPack) hinv
  have h1 : outEps (write_current_chunk pfx b (eps.foldl (packStep pfx b) initPack)) = eps := by
    rw [hoe, houteps]
    simp [outEps, initPack]
  unfold outEps at h1
  rw [hck] at h1
  simpa [process_pfx] using h1

/-! ## Counting lemmas for the no-text-loss property -/

/-- The property that none of the five metadata patterns matches a
line. -/
def noneMatch (l : List Char) : Prop :=
  pyMatch patTimestampLed l = none ∧ pyMatch patSpeakerBracket l = none ∧
  pyMatch patSpeakerParen l = none ∧ pyMatch patParenTimestamp l = none ∧
  pyMatch SPEAKER_NAME_RE l = none

instance (l : List Char) : Decidable (noneMatch l) :=
  inferInstanceAs (Decidable
    (pyMatch patTimestampLed l = none ∧ pyMatch patSpeakerBracket l = none ∧
      pyMatch patSpeakerParen l = none ∧ pyMatch patParenTimestamp l = none ∧
      pyMatch SPEAKER_NAME_RE l = none))

theorem nonWsCount_append (a b : List Char) :
    nonWsCount (a ++ b) = nonWsCount a + nonWsCount b := by
  simp [nonWsCount, List.filter_append]

theorem nonWsCount_dropWhile (l : List Char) :
    nonWsCount (l.dropWhile pySpace) = nonWsCount l := by
  induction l with
  | nil => rfl
  | cons c t ih =>
    rw [List.dropWhile_cons]
    by_cases h : pySpace c
    · rw [if_pos h, ih]
      simp [nonWsCount, List.filter_cons, h]
    · rw [if_neg h]

theorem nonWsCount_reverse (l : List Char) : nonWsCount l.reverse = nonWsCount l := by
  simp [nonWsCount, List.filter_reverse]

theorem nonWsCount_pyStrip (l : List Char) : nonWsCount (pyStrip l) = nonWsCount l := by
  unfold pyStrip
  rw [nonWsCount_reverse, nonWsCount_dropWhile, nonWsCount_reverse, nonWsCount_dropWhile]

theorem nonWsCount_collapseGo (l : List Char) :
    ∀ b : Bool, nonWsCount (collapseGo b l) = nonWsCount l := by
  induction l with
  | nil => intro b; rfl
  | cons c t ih =>
    intro b
    unfold collapseGo
    by_cases h : pySpace c
    · rw [if_pos h]
      have hsp : nonWsCount (c :: t) = nonWsCount t := by
        simp [nonWsCount, List.filter_cons, h]
      cases b with
      | true => rw [if_pos rfl, ih true, hsp]
      | false =>
        rw [if_neg (by simp)]
        have : nonWsCount (' ' :: collapseGo true t) = nonWsCount (collapseGo true t) := by
          simp [nonWsCount, List.filter_cons, pySpace]
        rw [this, ih true, hsp]
    · rw [if_neg h]
      simp only [nonWsCount, List.filter_cons, h]
      have := ih false
      simp only [nonWsCount] at this
      simp [this]

theorem nonWsCount_collapseWS (l : List Char) :
    nonWsCount (collapseWS l) = nonWsCount l := nonWsCount_collapseGo l false

theorem nonWsCount_joinSp (ls : List (List Char)) :
    nonWsCount (joinSp ls) = (ls.map nonWsCount).sum := by
  induction ls with
  | nil => rfl
  | cons bhd tl ih =>
    cases tl with
    | nil => simp [joinSp]
    | cons c t =>
      rw [joinSp, nonWsCount_append]
      have hsp : nonWsCount (' ' :: joinSp (c :: t)) = nonWsCount (joinSp (c :: t)) := by
        simp [nonWsCount, List.filter_cons, pySpace]
      rw [hsp, ih]
      simp

theorem nonWsCount_empty_strip (l : List Char) (h : (pyStrip l).isEmpty) :
    nonWsCount l = 0 := by
  have h1 := nonWsCount_pyStrip l
  rw [List.isEmpty_iff.mp h] at h1
  simpa [nonWsCount] using h1.symm

/-- A block matched by no pattern is a continuation: the stripped line
is appended to the buffer and nothing else changes except a `None`
prefix being initialized. -/
theorem segLine_unmatched (ep : Nat) (ymd : List Char) (st : SegState) (b : List Char)
    (h : noneMatch (pyStrip b)) :
    segLine ep ymd st b =
      if (pyStrip b).isEmpty then st
      else
        { st with
          cur_pfx := some (st.cur_pfx.getD (buildPfx ep ymd st.cur_ts st.cur_speaker)),
          buffer := st.buffer ++ [pyStrip b] } := by
  obtain ⟨h1, h2, h3, h4, h5⟩ := h
  simp only [segLine, h1, h2, h3, h4, h5]

theorem seg_unmatched_fold (ep : Nat) (ymd : List Char) (blocks : List String) :
    ∀ st : SegState, (∀ b ∈ blocks, noneMatch (pyStrip b.data)) →
      (blocks.foldl (fun s b => segLine ep ymd s b.data) st).out = st.out ∧
      ((blocks.foldl (fun s b => segLine ep ymd s b.data) st).buffer.map nonWsCount).sum =
        (st.buffer.map nonWsCount).sum + (blocks.map (fun b => nonWsCount b.data)).sum := by
  induction blocks with
  | nil => intro st _; simp
  | cons bh bt ih =>
    intro st hall
    have hh := hall bh (by simp)
    have ht : ∀ b ∈ bt, noneMatch (pyStrip b.data) := fun b hb => hall b (by simp [hb])
    simp only [List.foldl_cons]
    rw [segLine_unmatched ep ymd st bh.data hh]
    by_cases he : (pyStrip bh.data).isEmpty
    · rw [if_pos he]
      obtain ⟨o1, o2⟩ := ih st ht
      refine ⟨o1, ?_⟩
      rw [o2]
      have : nonWsCount bh.data = 0 := nonWsCount_empty_strip _ he
      simp [this]
    · rw [if_neg he]
      obtain ⟨o1, o2⟩ := ih _ ht
      refine ⟨o1, ?_⟩
      rw [o2]
      simp only [List.map_append, List.map_cons, List.map_nil, List.sum_append,
        List.sum_cons, List.sum_nil]
      rw [nonWsCount_pyStrip]
      ring

theorem flush_out_sum (st : SegState) :
    (((flush_buffer st).out).map (fun pc => nonWsCount pc.2)).sum =
      ((st.out).map (fun pc => nonWsCount pc.2)).sum + (st.buffer.map nonWsCount).sum := by
  unfold flush_buffer
  by_cases hb : st.buffer.isEmpty
  · rw [if_pos hb]
    rw [List.isEmpty_iff.mp hb]
    simp
  · rw [if_neg hb]
    have hch : nonWsCount (pyStrip (collapseWS (joinSp st.buffer))) =
        (st.buffer.map nonWsCount).sum := by
      rw [nonWsCount_pyStrip, nonWsCount_collapseWS, nonWsCount_joinSp]
    by_cases hc : (pyStrip (collapseWS (joinSp st.buffer))).isEmpty
    · rw [if_pos hc]
      have : (st.buffer.map nonWsCount).sum = 0 := by
        rw [← hch, List.isEmpty_iff.mp hc]
        rfl
      simp [this]
    · rw [if_neg hc]
      simp [hch]

/-! ## Projection lemmas for the segmenter step -/

theorem flush_fields (st : SegState) :
    (flush_buffer st).cur_ts = st.cur_ts ∧
    (flush_buffer st).cur_speaker = st.cur_speaker ∧
    (flush_buffer st).cur_pfx = st.cur_pfx := by
  unfold flush_buffer
  split
  · exact ⟨rfl, rfl, rfl⟩
  · dsimp only
    split
    · exact ⟨rfl, rfl, rfl⟩
    · exact ⟨rfl, rfl, rfl⟩

theorem finishMatched_fields (ep : Nat) (ymd : List Char) (st : SegState)
    (u : Option (List Char) × Option (List Char) × List Char) :
    (finishMatched ep ymd st u).cur_ts = u.1 ∧
    (finishMatched ep ymd st u).cur_speaker = u.2.1 ∧
    (finishMatched ep ymd st u).buffer =
      (if (cleanContent u.2.2).isEmpty then ([] : List (List Char))
       else [cleanContent u.2.2]) := by
  have h := flush_fields { st with cur_ts := u.1, cur_speaker := u.2.1 }
  refine ⟨?_, ?_, rfl⟩
  · have h1 : (finishMatched ep ymd st u).cur_ts =
        (flush_buffer { st with cur_ts := u.1, cur_speaker := u.2.1 }).cur_ts := rfl
    rw [h1, h.1]
  · have h2 : (finishMatched ep ymd st u).cur_speaker =
        (flush_buffer { st with cur_ts := u.1, cur_speaker := u.2.1 }).cur_speaker := rfl
    rw [h2, h.2.1]

/-- A stripped, non-empty line that matches Pattern 1 drives `segLine`
through `pattern1Update`. -/
theorem segLine_pattern1 (ep : Nat) (ymd : List Char) (st : SegState)
    (line : List Char) (g : GroupMap) (rest : List Char)
    (hfix : pyStrip line = line) (hne : line.isEmpty = false)
    (hm : pyMatch patTimestampLed line = some (g, rest)) :
    segLine ep ymd st line = finishMatched ep ymd st (pattern1Update st line g) := by
  unfold segLine
  simp only [hfix, hne, hm, Bool.false_eq_true, if_false]

/-! ## Engine lemmas: matches only consume input -/

theorem reMatch_eps {α : Type} (fuel : Nat) (s : List Char) (g : GroupMap)
    (k : List Char → GroupMap → Option α) :
    reMatch (fuel + 1) .eps s g k = k s g := rfl

theorem reMatch_rep {α : Type} (fuel : Nat) (p : Char → Bool) (lo : Nat)
    (hi : Option Nat) (gr : Bool) (s : List Char) (g : GroupMap)
    (k : List Char → GroupMap → Option α) :
    reMatch (fuel + 1) (.rep p lo hi gr) s g k =
      (repCands p lo hi gr s).findSome? (fun n => k (s.drop n) g) := rfl

theorem reMatch_cat {α : Type} (fuel : Nat) (a b : RE) (s : List Char) (g : GroupMap)
    (k : List Char → GroupMap → Option α) :
    reMatch (fuel + 1) (.cat a b) s g k =
      reMatch fuel a s g (fun s1 g1 => reMatch fuel b s1 g1 k) := rfl

theorem reMatch_sub {α : Type} :
    ∀ (fuel : Nat) (re : RE) (s : List Char) (g : GroupMap)
      (k : List Char → GroupMap → Option α) (r : α),
      reMatch fuel re s g k = some r →
      ∃ s1 g1, s1.length ≤ s.length ∧ k s1 g1 = some r := by
  intro fuel
  induction fuel with
  | zero => intro re s g k r h; simp [reMatch] at h
  | succ fuel ih =>
    intro re s g k r h
    cases re with
    | eps => exact ⟨s, g, le_refl _, by simpa [reMatch] using h⟩
    | rep p lo hi greedy =>
      simp only [reMatch] at h
      obtain ⟨l1, n, l2, _, hf, _⟩ := List.findSome?_eq_some_iff.mp h
      refine ⟨s.drop n, g, ?_, hf⟩
      rw [List.length_drop]
      omega
    | cat a b =>
      simp only [reMatch] at h
      obtain ⟨s1, g1, hle1, hk1⟩ := ih a s g _ r h
      obtain ⟨s2, g2, hle2, hk2⟩ := ih b s1 g1 k r hk1
      exact ⟨s2, g2, le_trans hle2 hle1, hk2⟩
    | alt a b =>
      simp only [reMatch] at h
      cases hm : reMatch fuel a s g k with
      | some r0 =>
        rw [hm] at h
        cases h
        exact ih a s g k r hm
      | none =>
        rw [hm] at h
        exact ih b s g k r h
    | star a =>
      simp only [reMatch] at h
      cases hm : reMatch fuel a s g
          (fun s1 g1 =>
            if s1.length < s.length then reMatch fuel (RE.star a) s1 g1 k else none) with
      | some r0 =>
        rw [hm] at h
        cases h
        obtain ⟨s1, g1, _, hk1⟩ := ih a s g _ r hm
        by_cases hlt : s1.length < s.length
        · rw [if_pos hlt] at hk1
          obtain ⟨s2, g2, hle2, hk2⟩ := ih (RE.star a) s1 g1 k r hk1
          exact ⟨s2, g2, le_trans hle2 (le_of_lt hlt), hk2⟩
        · rw [if_neg hlt] at hk1
          exact absurd hk1 (by simp)
      | none =>
        rw [hm] at h
        exact ⟨s, g, le_refl _, h⟩
    | group n a =>
      simp only [reMatch] at h
      obtain ⟨s1, g1, hle1, hk1⟩ := ih a s g _ r h
      exact ⟨s1, (n, s.take (s.length - s1.length)) :: g1, hle1, hk1⟩

/-- A successful anchored match leaves a suffix no longer than the
input. -/
theorem pyMatch_rest_le (r : RE) (s : List Char) (g : GroupMap) (rest : List Char)
    (h : pyMatch r s = some (g, rest)) : rest.length ≤ s.length := by
  obtain ⟨s1, g1, hle, hk⟩ := reMatch_sub _ r s [] _ (g, rest) h
  obtain ⟨rfl, rfl⟩ : g1 = g ∧ s1 = rest := by
    injection hk with hk2
    injection hk2 with ha hb
    exact ⟨ha, hb⟩
  exact hle

/-- The substitution scan does not depend on the fuel once it exceeds
the input length. -/
theorem pySubGo_fuel (r : RE) (f : GroupMap → List Char) :
    ∀ (n : Nat) (s : List Char) (f1 f2 : Nat), s.length = n →
      s.length < f1 → s.length < f2 → pySubGo r f f1 s = pySubGo r f f2 s := by
  intro n
  induction n using Nat.strong_induction_on with
  | _ n ihn =>
    intro s f1 f2 hn h1 h2
    obtain ⟨a, rfl⟩ : ∃ a, f1 = a + 1 := ⟨f1 - 1, by omega⟩
    obtain ⟨b, rfl⟩ : ∃ b, f2 = b + 1 := ⟨f2 - 1, by omega⟩
    cases hm : pyMatch r s with
    | some x =>
      obtain ⟨g, rest⟩ := x
      have hle := pyMatch_rest_le r s g rest hm
      simp only [pySubGo, hm]
      by_cases heq : rest.length = s.length
      · rw [if_pos heq, if_pos heq]
        cases s with
        | nil => rfl
        | cons c t =>
          have ht : t.length < n := by simp at hn; omega
          dsimp only
          rw [ihn t.length ht t a b rfl (by omega) (by omega)]
      · rw [if_neg heq, if_neg heq]
        have hlt : rest.length < s.length := lt_of_le_of_ne hle heq
        rw [ihn rest.length (by omega) rest a b rfl (by omega) (by omega)]
    | none =>
      simp only [pySubGo, hm]
      cases s with
      | nil => rfl
      | cons c t =>
        have ht : t.length < n := by simp at hn; omega
        dsimp only
        rw [ihn t.length ht t a b rfl (by omega) (by omega)]

/-- Running the scan with any sufficient fuel equals `pySub`. -/
theorem pySubGo_eq_pySub (r : RE) (f : GroupMap → List Char) (s : List Char)
    (fuel : Nat) (h : s.length < fuel) : pySubGo r f fuel s = pySub r f s :=
  pySubGo_fuel r f s.length s fuel (s.length + 1) rfl h (by omega)

/-! ## Evaluation of the final tag-strip pattern -/

theorem runLen_stop (p : Char → Bool) :
    ∀ (inner : List Char), (∀ c ∈ inner, p c = true) →
      ∀ (x : Char) (post : List Char), p x = false →
      runLen p (inner ++ x :: post) = inner.length := by
  intro inner
  induction inner with
  | nil =>
    intro _ x post hx
    simp [runLen, hx]
  | cons c t ih =>
    intro hall x post hx
    have hc : p c = true := hall c (by simp)
    rw [List.cons_append]
    show (if p c then runLen p (t ++ x :: post) + 1 else 0) = (c :: t).length
    rw [if_pos hc, ih (fun d hd => hall d (by simp [hd])) x post hx]
    simp

theorem repCands_greedy_head (p : Char → Bool) (s : List Char)
    (h : 1 ≤ runLen p s) :
    ∃ tl, repCands p 1 none true s = runLen p s :: tl := by
  obtain ⟨m, hm⟩ : ∃ m, runLen p s = m + 1 := ⟨runLen p s - 1, by omega⟩
  refine ⟨((List.range m).map (fun i => i + 1)).reverse, ?_⟩
  unfold repCands
  dsimp only
  rw [if_neg (by omega)]
  rw [hm]
  have h2 : m + 1 + 1 - 1 = m + 1 := by omega
  rw [h2, List.range_succ]
  simp

theorem repCands_empty (p : Char → Bool) (c : Char) (t : List Char) (hc : p c = false) :
    repCands p 1 (some 1) true (c :: t) = [] := by
  unfold repCands
  dsimp only
  have h1 : runLen p (c :: t) = 0 := by
    show (if p c then runLen p t + 1 else 0) = 0
    simp [hc]
  rw [h1]
  rfl

theorem repCands_single (p : Char → Bool) (c : Char) (t : List Char) (hc : p c = true) :
    repCands p 1 (some 1) true (c :: t) = [1] := by
  unfold repCands
  dsimp only
  have h1 : runLen p (c :: t) = runLen p t + 1 := by
    show (if p c then runLen p t + 1 else 0) = runLen p t + 1
    simp [hc]
  rw [h1]
  have hmin : min 1 (runLen p t + 1) = 1 := by omega
  rw [hmin, if_neg (by omega)]
  rfl

/-- On a string that does not open with `<`, `TAG_RE` does not match. -/
theorem pyMatch_TAG_cons_none {α : Type} (c : Char) (t : List Char) (g : GroupMap)
    (k : List Char → GroupMap → Option α) (hc : ¬ c = '<') :
    ∀ fuel, reMatch (fuel + 2) TAG_RE (c :: t) g k = none := by
  intro fuel
  show reMatch ((fuel + 1) + 1)
      (.cat (RE.ch '<') (.cat nonGtPlus (.cat (RE.ch '>') .eps))) (c :: t) g k = none
  rw [reMatch_cat]
  rw [show RE.ch '<' = .rep (fun x => x = '<') 1 (some 1) true from rfl]
  rw [reMatch_rep]
  rw [repCands_empty (fun x => x = '<') c t (by simp [hc])]
  rfl

/-- On `<inner>post` with a non-empty `inner` free of `>`, `TAG_RE`
consumes exactly the tag and hands `post` to the continuation. -/
theorem reMatch_TAG_tag {α : Type} (inner post : List Char) (g : GroupMap)
    (k : List Char → GroupMap → Option α) (r : α)
    (hin : ∀ c ∈ inner, ¬ c = '>') (hne : inner ≠ []) (hk : k post g = some r) :
    ∀ fuel, reMatch (fuel + 4) TAG_RE ('<' :: (inner ++ '>' :: post)) g k = some r := by
  intro fuel
  have e3 : reMatch (fuel + 2) (.cat (RE.ch '>') .eps) ('>' :: post) g k = some r := by
    show reMatch ((fuel + 1) + 1) (.cat (RE.ch '>') .eps) ('>' :: post) g k = some r
    rw [reMatch_cat]
    rw [show RE.ch '>' = .rep (fun x => x = '>') 1 (some 1) true from rfl]
    rw [reMatch_rep]
    rw [repCands_single (fun x => x = '>') '>' post (by decide)]
    rw [List.findSome?_cons]
    simp only [List.drop_succ_cons, List.drop_zero]
    rw [reMatch_eps, hk]
  have hinb : ∀ c ∈ inner, isNotGt c = true := by
    intro c hcmem
    simpa [isNotGt] using hin c hcmem
  have hrl : runLen isNotGt (inner ++ '>' :: post) = inner.length :=
    runLen_stop isNotGt inner hinb '>' post (by simp [isNotGt])
  have hpos : 1 ≤ runLen isNotGt (inner ++ '>' :: post) := by
    rw [hrl]
    cases inner with
    | nil => exact absurd rfl hne
    | cons a t => simp
  have e2 : reMatch (fuel + 3) (.cat nonGtPlus (.cat (RE.ch '>') .eps))
      (inner ++ '>' :: post) g k = some r := by
    show reMatch ((fuel + 2) + 1) (.cat nonGtPlus (.cat (RE.ch '>') .eps))
      (inner ++ '>' :: post) g k = some r
    rw [reMatch_cat]
    rw [show nonGtPlus = .rep isNotGt 1 none true from rfl]
    rw [reMatch_rep]
    obtain ⟨tl, htl⟩ := repCands_greedy_head isNotGt (inner ++ '>' :: post) hpos
    rw [hrl] at htl
    rw [htl, List.findSome?_cons]
    rw [show (inner ++ '>' :: post).drop inner.length = '>' :: post from
      List.drop_left inner ('>' :: post)]
    rw [e3]
  show reMatch ((fuel + 3) + 1)
      (.cat (RE.ch '<') (.cat nonGtPlus (.cat (RE.ch '>') .eps)))
      ('<' :: (inner ++ '>' :: post)) g k = some r
  rw [reMatch_cat]
  rw [show RE.ch '<' = .rep (fun x => x = '<') 1 (some 1) true from rfl]
  rw [reMatch_rep]
  rw [repCands_single (fun x => x = '<') '<' (inner ++ '>' :: post) (by decide)]
  rw [List.findSome?_cons]
  simp only [List.drop_succ_cons, List.drop_zero]
  rw [e2]

theorem pySubGo_step (r : RE) (f : GroupMap → List Char) (fuel : Nat) (s : List Char) :
    pySubGo r f (fuel + 1) s =
      match pyMatch r s with
      | some (g, rest) =>
        if rest.length = s.length then
          match s with
          | [] => f g
          | c :: t => f g ++ c :: pySubGo r f fuel t
        else f g ++ pySubGo r f fuel rest
      | none =>
        match s with
        | [] => []
        | c :: t => c :: pySubGo r f fuel t := rfl

/-- The final strip pass replaces each tag by exactly one space: on
input `pre<inner>post` where `pre` opens no tag and `<inner>` is a
well-delimited tag, the output is `pre`, one space, then the
substitution of `post`. -/
theorem tagSub_step :
    ∀ (pre inner post : List Char),
      (∀ c ∈ pre, ¬ c = '<') → (∀ c ∈ inner, ¬ c = '>') → inner ≠ [] →
      pySub TAG_RE (fun _ => [' ']) (pre ++ '<' :: (inner ++ '>' :: post)) =
        pre ++ ' ' :: pySub TAG_RE (fun _ => [' ']) post := by
  intro pre
  induction pre with
  | nil =>
    intro inner post _ hin hne
    simp only [List.nil_append]
    have hmatch : pyMatch TAG_RE ('<' :: (inner ++ '>' :: post)) = some ([], post) := by
      unfold pyMatch
      have hsz : reSize TAG_RE = 7 := rfl
      have hF : (reSize TAG_RE + 2) * (('<' :: (inner ++ '>' :: post)).length + 2) =
          ((reSize TAG_RE + 2) * (('<' :: (inner ++ '>' :: post)).length + 2) - 4) + 4 := by
        rw [hsz]
        omega
      rw [hF]
      exact reMatch_TAG_tag inner post [] _ ([], post) hin hne rfl _
    show pySubGo TAG_RE (fun _ => [' '])
      (('<' :: (inner ++ '>' :: post)).length + 1) ('<' :: (inner ++ '>' :: post)) = _
    rw [pySubGo_step, hmatch]
    dsimp only
    rw [if_neg (by simp only [List.length_cons, List.length_append]; omega)]
    rw [pySubGo_eq_pySub TAG_RE _ post ('<' :: (inner ++ '>' :: post)).length
      (by simp only [List.length_cons, List.length_append]; omega)]
    rfl
  | cons c pre' ih =>
    intro inner post hpre hin hne
    have hc : ¬ c = '<' := hpre c (by simp)
    have hpre' : ∀ x ∈ pre', ¬ x = '<' := fun x hx => hpre x (by simp [hx])
    rw [List.cons_append]
    have hnone : pyMatch TAG_RE (c :: (pre' ++ '<' :: (inner ++ '>' :: post))) = none := by
      unfold pyMatch
      have hsz : reSize TAG_RE = 7 := rfl
      have hF : (reSize TAG_RE + 2) *
          ((c :: (pre' ++ '<' :: (inner ++ '>' :: post))).length + 2) =
          ((reSize TAG_RE + 2) *
            ((c :: (pre' ++ '<' :: (inner ++ '>' :: post))).length + 2) - 2) + 2 := by
        rw [hsz]
        omega
      rw [hF]
      exact pyMatch_TAG_cons_none c _ [] _ hc _
    show pySubGo TAG_RE (fun _ => [' '])
      ((c :: (pre' ++ '<' :: (inner ++ '>' :: post))).length + 1)
      (c :: (pre' ++ '<' :: (inner ++ '>' :: post))) = _
    rw [pySubGo_step, hnone]
    dsimp only
    rw [pySubGo_eq_pySub TAG_RE _ (pre' ++ '<' :: (inner ++ '>' :: post))
      (c :: (pre' ++ '<' :: (inner ++ '>' :: post))).length (by simp)]
    rw [ih inner post hpre' hin hne]
    rfl

/-! ## Ordered-search lemmas for date-format selection -/

theorem findSome?_at_index {α β : Type} (f : α → Option β) :
    ∀ (l : List α) (i : Nat) (x : α) (r : β), l.get? i = some x →
      (∀ j y, j < i → l.get? j = some y → f y = none) →
      f x = some r → l.findSome? f = some r := by
  intro l
  induction l with
  | nil => intro i x r hg _ _; simp at hg
  | cons a t ih =>
    intro i x r hg hprev hf
    cases i with
    | zero =>
      simp only [List.get?_cons_zero, Option.some.injEq] at hg
      subst hg
      rw [List.findSome?_cons, hf]
    | succ n =>
      have ha : f a = none := hprev 0 a (Nat.succ_pos n) rfl
      rw [List.findSome?_cons, ha]
      exact ih n x r (by simpa using hg)
        (fun j y hj hgy => hprev (j + 1) y (Nat.succ_lt_succ hj) (by simpa using hgy)) hf

theorem findSome?_all_none {α β : Type} (f : α → Option β) :
    ∀ l : List α, (∀ x ∈ l, f x = none) → l.findSome? f = none := by
  intro l
  induction l with
  | nil => intro _; rfl
  | cons a t ih =>
    intro h
    rw [List.findSome?_cons, h a (by simp)]
    exact ih (fun x hx => h x (by simp [hx]))

/-! ## Demonstration inputs shared by witnesses -/

/-- A small episode used by packer witnesses. -/
def epA : Episode := ⟨1, "Ep 1", "Date 1", 2025, "Content 1"⟩

/-- A second small episode used by packer witnesses. -/
def epB : Episode := ⟨2, "Ep 2", "Date 2", 2025, "Content 2"⟩

/-- The chunk the packer produces from `[epA, epB]` without
year-splitting. -/
def demoChunk : Chunk := ⟨"IM_Transcripts_1-2.md", [epA, epB], 4, 100⟩

/-- The chunk the packer produces from `[epA, epB]` with
year-splitting. -/
def demoChunkY : Chunk := ⟨"IM_Transcripts_2025_1_2.md", [epA, epB], 4, 100⟩

/-! ## Claim theorems -/

/-- Claim C2: in every run of the chunk packer, a written chunk's word
total is at most `MAX_WORDS` and its byte total at most `MAX_BYTES`
unless it contains exactly one episode; an episode is never split
across chunks and packing flushes the final non-empty chunk — the
chunks' episode lists concatenate to exactly the input sequence; and an
episode exceeding a limit by itself always sits alone in its chunk. -/
theorem claim_C2_chunk_bounds (pfx : String) (by_year : Bool) (eps : List Episode) :
    (∀ c ∈ process_pfx pfx by_year eps, 2 ≤ c.episodes.length →
        c.words ≤ MAX_WORDS ∧ c.bytes ≤ MAX_BYTES) ∧
    (∀ c ∈ process_pfx pfx by_year eps, ∀ e ∈ c.episodes,
        (MAX_WORDS < ep_words e ∨ MAX_BYTES < ep_bytes e) → c.episodes = [e]) ∧
    ((process_pfx pfx by_year eps).map Chunk.episodes).flatten = eps := by
  refine ⟨?_, ?_, process_pfx_eps pfx by_year eps⟩
  · intro c hc
    exact (process_pfx_chunkOK pfx by_year eps c hc).2.2.1
  · intro c hc
    exact (process_pfx_chunkOK pfx by_year eps c hc).2.2.2.1

/-- Witness for C2 at a concrete two-episode run. -/
theorem claim_C2_chunk_bounds_witness :
    demoChunk ∈ process_pfx "IM" false [epA, epB] ∧
    2 ≤ demoChunk.episodes.length ∧
    (demoChunk.words ≤ MAX_WORDS ∧ demoChunk.bytes ≤ MAX_BYTES) :=
  ⟨by decide, by decide,
    (claim_C2_chunk_bounds "IM" false [epA, epB]).1 demoChunk (by decide) (by decide)⟩

/-- Claim C5: with year-splitting enabled, all episodes of any chunk
the packer writes share one extracted year. -/
theorem claim_C5_year_purity (pfx : String) (eps : List Episode) :
    ∀ c ∈ process_pfx pfx true eps, ∀ e1 ∈ c.episodes, ∀ e2 ∈ c.episodes,
      e1.year = e2.year :=
  fun c hc => (process_pfx_chunkOK pfx true eps c hc).2.2.2.2 rfl

/-- Witness for C5 at a concrete year-split run. -/
theorem claim_C5_year_purity_witness :
    demoChunkY ∈ process_pfx "IM" true [epA, epB] ∧
    epA ∈ demoChunkY.episodes ∧ epB ∈ demoChunkY.episodes ∧
    epA.year = epB.year :=
  ⟨by decide, by decide, by decide,
    claim_C5_year_purity "IM" [epA, epB] demoChunkY (by decide) epA (by decide) epB
      (by decide)⟩

/-- Claim C10: every chunk's word counter is the sum over its episodes
of the whitespace-separated word count of the episode's `content`
alone, while its byte counter is the sum of the UTF-8 byte lengths of
the full formatted episode texts, title/date header and horizontal-rule
separator included. -/
theorem claim_C10_counter_semantics (pfx : String) (by_year : Bool) (eps : List Episode) :
    ∀ c ∈ process_pfx pfx by_year eps,
      c.words = (c.episodes.map (fun e => (pySplit e.content.data).length)).sum ∧
      c.bytes =
        (c.episodes.map (fun e => (episode_header e ++ episode_body e).utf8ByteSize)).sum := by
  intro c hc
  have h := process_pfx_chunkOK pfx by_year eps c hc
  exact ⟨h.1, h.2.1⟩

/-- Witness for C10 at a concrete two-episode run. -/
theorem claim_C10_counter_semantics_witness :
    demoChunk ∈ process_pfx "IM" false [epA, epB] ∧
    (demoChunk.words =
        (demoChunk.episodes.map (fun e => (pySplit e.content.data).length)).sum ∧
      demoChunk.bytes =
        (demoChunk.episodes.map
          (fun e => (episode_header e ++ episode_body e).utf8ByteSize)).sum) :=
  ⟨by decide,
    claim_C10_counter_semantics "IM" false [epA, epB] demoChunk (by decide)⟩

/-- Claim C6: Scenario A — the two blocks merge into a single finalized
utterance whose header carries the timestamp and speaker segments. -/
theorem claim_C6_scenario_A :
    segmentLines 100 "25-01-01"
      ["1:05:32 - Leo Laporte: Welcome to the show.", "Great to be here."] =
      ["EP:100 Date:25-01-01 TS:1:05:32 - Leo Laporte - Welcome to the show. Great to be here."] := by
  decide

/-- The finalized output line of Scenario A, fed back to the segmenter
for the idempotence check. -/
def headerLine : String :=
  "EP:100 Date:25-01-01 TS:1:05:32 - Leo Laporte - Welcome to the show. Great to be here."

/-- Claim C1 (refuted by the code): a finalized header line IS
re-matched — Pattern 5 (`SPEAKER_NAME_RE`) matches its leading `EP:`,
so a second pass re-attributes the utterance to speaker "EP" and drops
the timestamp segment, instead of leaving attribution unchanged. -/
theorem claim_C1_idempotence_violated :
    (pyMatch SPEAKER_NAME_RE headerLine.data).isSome = true ∧
    segmentLines 100 "25-01-01" [headerLine] =
      ["EP:100 Date:25-01-01 - EP - 100 Date:25-01-01 TS:1:05:32 - Leo Laporte - Welcome to the show. Great to be here."] := by
  constructor
  · decide
  · decide

/-- Claim C4 (amended): a block matching none of the five patterns is a
continuation — the stripped block is appended to the open buffer and
the current speaker, timestamp and emitted lines are unchanged; and
whenever no block of the input matches any pattern, the total
non-whitespace character count of the finalized utterance texts equals
that of the input blocks.  (For blocks that do match a pattern, the
matched speaker/timestamp characters move into the header instead of
the text, so the equality of the original claim fails — see the
counterexample.) -/
theorem claim_C4_no_text_loss (ep : Nat) (ymd : String) :
    (∀ (st : SegState) (b : String), noneMatch (pyStrip b.data) →
      (pyStrip b.data).isEmpty = false →
        (segLine ep ymd.data st b.data).cur_ts = st.cur_ts ∧
        (segLine ep ymd.data st b.data).cur_speaker = st.cur_speaker ∧
        (segLine ep ymd.data st b.data).buffer = st.buffer ++ [pyStrip b.data] ∧
        (segLine ep ymd.data st b.data).out = st.out) ∧
    (∀ blocks : List String, (∀ b ∈ blocks, noneMatch (pyStrip b.data)) →
      ((segmentPairs ep ymd blocks).map (fun pc => nonWsCount pc.2)).sum =
        (blocks.map (fun b => nonWsCount b.data)).sum) := by
  constructor
  · intro st b h he
    rw [segLine_unmatched ep ymd.data st b.data h]
    rw [if_neg (by simp [he])]
    exact ⟨rfl, rfl, rfl, rfl⟩
  · intro blocks hall
    unfold segmentPairs
    obtain ⟨ho, hs⟩ := seg_unmatched_fold ep ymd.data blocks initSeg hall
    rw [flush_out_sum, ho, hs]
    simp [initSeg]

/-- Blocks matched by no pattern, used by the C4 witness. -/
def demoBlocks : List String := ["hello world", "second line two"]

/-- Witness for C4 (amended) at concrete continuation-only input. -/
theorem claim_C4_no_text_loss_witness :
    (∀ b ∈ demoBlocks, noneMatch (pyStrip b.data)) ∧
    ((segmentPairs 0 "00-01-01" demoBlocks).map (fun pc => nonWsCount pc.2)).sum =
      (demoBlocks.map (fun b => nonWsCount b.data)).sum :=
  ⟨by decide, (claim_C4_no_text_loss 0 "00-01-01").2 demoBlocks (by decide)⟩

/-- Counterexample to C4 as stated: on the single block
"Leo Laporte: Hi" the utterance text keeps 2 non-whitespace characters
("Hi") while the input block has 13 — the speaker name and its colon
moved out of the text. -/
theorem claim_C4_no_text_loss_counterexample :
    ((segmentPairs 0 "00-01-01" ["Leo Laporte: Hi"]).map (fun pc => nonWsCount pc.2)).sum = 2 ∧
    ((["Leo Laporte: Hi"] : List String).map (fun b => nonWsCount b.data)).sum = 13 ∧
    ((segmentPairs 0 "00-01-01" ["Leo Laporte: Hi"]).map (fun pc => nonWsCount pc.2)).sum ≠
      ((["Leo Laporte: Hi"] : List String).map (fun b => nonWsCount b.data)).sum := by
  refine ⟨by decide, by decide, by decide⟩

/-- Counterexample to C7 as stated: the noise-tag pass of line 136
deletes a `<span>` tag outright (empty replacement), fusing the
adjacent words: `a<span>b` sanitizes to the single block "ab", not
"a b". -/
theorem claim_C7_single_space_counterexample :
    sanitize_blocks "a<span>b" = ["ab"] ∧ sanitize_blocks "a<span>b" ≠ ["a b"] := by
  constructor
  · decide
  · decide

/-- Claim C9: canonical-date parsing strips ordinal suffixes, tries the
five templates in their fixed order with the first success winning,
falls back to the sentinel "00-01-01" when none matches, and on
Scenario C's byline yields "26-02-18" with extracted year 2026. -/
theorem claim_C9_date_parsing :
    (∀ (s : String) (i : Nat) (f : RE × List String) (r : Nat × Nat × Nat),
        s.isEmpty = false →
        strptimeFormats.get? i = some f →
        (∀ j g, j < i → strptimeFormats.get? j = some g →
          tryFormat g (stripOrdinals s.data) = none) →
        tryFormat f (stripOrdinals s.data) = some r →
        parse_date_ymd s = fmtYmd r) ∧
    (∀ s : String, (∀ f ∈ strptimeFormats, tryFormat f (stripOrdinals s.data) = none) →
        parse_date_ymd s = "00-01-01") ∧
    parse_date_ymd "Wednesday, February 18th, 2026" = "26-02-18" ∧
    extract_year "Wednesday, February 18th, 2026" = 2026 := by
  refine ⟨?_, ?_, by decide, by decide⟩
  · intro s i f r hne hi hprev hf
    unfold parse_date_ymd
    rw [if_neg (by simp [hne])]
    rw [findSome?_at_index _ strptimeFormats i f r hi hprev hf]
  · intro s hall
    unfold parse_date_ymd
    by_cases he : s.isEmpty
    · rw [if_pos he]
    · rw [if_neg he]
      rw [findSome?_all_none _ strptimeFormats hall]

/-- Witness for C9: Scenario C's byline fails templates 0 and 1,
succeeds on template 2 with (2026, 2, 18), and the parser returns its
rendering. -/
theorem claim_C9_date_parsing_witness :
    ("Wednesday, February 18th, 2026" : String).isEmpty = false ∧
    strptimeFormats.get? 2 = some (fmtWeekdayFull, fullMonths) ∧
    tryFormat (fmtFullDMY, fullMonths)
      (stripOrdinals ("Wednesday, February 18th, 2026" : String).data) = none ∧
    tryFormat (fmtAbbrDMY, abbrMonths)
      (stripOrdinals ("Wednesday, February 18th, 2026" : String).data) = none ∧
    tryFormat (fmtWeekdayFull, fullMonths)
      (stripOrdinals ("Wednesday, February 18th, 2026" : String).data) = some (2026, 2, 18) ∧
    parse_date_ymd "Wednesday, February 18th, 2026" = fmtYmd (2026, 2, 18) := by
  refine ⟨by decide, rfl, by decide, by decide, by decide, ?_⟩
  refine claim_C9_date_parsing.1 "Wednesday, February 18th, 2026" 2
    (fmtWeekdayFull, fullMonths) (2026, 2, 18) (by decide) rfl ?_ (by decide)
  intro j g hj hg
  interval_cases j
  · have h0 : strptimeFormats.get? 0 = some (fmtFullDMY, fullMonths) := rfl
    rw [h0] at hg
    have hge := Option.some.inj hg
    rw [← hge]
    decide
  · have h1 : strptimeFormats.get? 1 = some (fmtAbbrDMY, abbrMonths) := rfl
    rw [h1] at hg
    have hge := Option.some.inj hg
    rw [← hge]
    decide

/-- Claim C8: the sanitizer emits a markdown link exactly when the href
starts with `/`, `http://` or `https://`; any other href keeps only the
inner text, and the script-scheme anchor of Scenario D sanitizes to the
bare block "x". -/
theorem claim_C8_link_allowlist :
    (∀ url content : List Char,
      (sanitize_link url content =
          " [".data ++ content ++ "](".data ++ url ++ ") ".data ↔
        ("/".data.isPrefixOf url || "http://".data.isPrefixOf url ||
          "https://".data.isPrefixOf url) = true) ∧
      (("/".data.isPrefixOf url || "http://".data.isPrefixOf url ||
          "https://".data.isPrefixOf url) = false →
        sanitize_link url content = " ".data ++ content ++ " ".data)) ∧
    sanitize_blocks "<a href=\"javascript:alert(1)\">x</a>" = ["x"] := by
  have hdrop : ∀ url content : List Char,
      ("/".data.isPrefixOf url || "http://".data.isPrefixOf url ||
        "https://".data.isPrefixOf url) = false →
      sanitize_link url content = " ".data ++ content ++ " ".data := by
    intro url content hcond
    unfold sanitize_link
    rw [if_neg (by simp [hcond])]
  refine ⟨fun url content => ⟨⟨?_, ?_⟩, hdrop url content⟩, by decide⟩
  · intro heq
    by_contra hfalse
    have hcond : ("/".data.isPrefixOf url || "http://".data.isPrefixOf url ||
        "https://".data.isPrefixOf url) = false := by
      cases h : ("/".data.isPrefixOf url || "http://".data.isPrefixOf url ||
        "https://".data.isPrefixOf url) with
      | true => exact absurd h hfalse
      | false => rfl
    rw [hdrop url content hcond] at heq
    have hlen := congrArg List.length heq
    simp only [List.length_append, List.length_cons, List.length_nil] at hlen
    omega
  · intro hcond
    unfold sanitize_link
    rw [if_pos hcond]

/-- Witness for C8 at Scenario D's href and inner text. -/
theorem claim_C8_link_allowlist_witness :
    ("/".data.isPrefixOf "javascript:alert(1)".data ||
      "http://".data.isPrefixOf "javascript:alert(1)".data ||
      "https://".data.isPrefixOf "javascript:alert(1)".data) = false ∧
    sanitize_link "javascript:alert(1)".data "x".data = " ".data ++ "x".data ++ " ".data :=
  ⟨by decide,
    (claim_C8_link_allowlist.1 "javascript:alert(1)".data "x".data).2 (by decide)⟩

/-- Claim C3 (amended): for a stripped non-empty block matched by
Pattern 1, the current timestamp always updates to group 1; the
candidate is the stripped group 2 — the part of `rest` before its
first colon, or all of `rest` when it has none — and when it is shorter
than 40 characters with none of `.`/`!`/`?`, it becomes the new
speaker with the stripped group 3 (empty when no colon) seeding the
buffer; otherwise the speaker is unchanged and the buffer is seeded
with candidate rejoined to group 3 by ": " (the colon being dropped
when group 3 is empty). -/
theorem claim_C3_pattern1_attribution (ep : Nat) (ymd : List Char) (st : SegState)
    (line : List Char) (g : GroupMap) (rest : List Char)
    (hfix : pyStrip line = line) (hne : line.isEmpty = false)
    (hm : pyMatch patTimestampLed line = some (g, rest))
    (hd : pyDigit (line.headD ' ') = true) :
    (segLine ep ymd st line).cur_ts = glook g 1 ∧
    (p1SpeakerOK g →
      (segLine ep ymd st line).cur_speaker = some (p1Candidate g) ∧
      (segLine ep ymd st line).buffer =
        (if (cleanContent (pyStrip ((glook g 3).getD []))).isEmpty then []
         else [cleanContent (pyStrip ((glook g 3).getD []))])) ∧
    (¬ p1SpeakerOK g →
      (segLine ep ymd st line).cur_speaker = st.cur_speaker ∧
      (segLine ep ymd st line).buffer =
        (if (cleanContent (p1AltContent g)).isEmpty then []
         else [cleanContent (p1AltContent g)])) := by
  rw [segLine_pattern1 ep ymd st line g rest hfix hne hm]
  unfold pattern1Update
  rw [if_pos hd]
  by_cases hok : p1SpeakerOK g
  · rw [if_pos hok]
    have h := finishMatched_fields ep ymd st
      (glook g 1, some (p1Candidate g), pyStrip ((glook g 3).getD []))
    exact ⟨h.1, fun _ => ⟨h.2.1, h.2.2⟩, fun hc => absurd hok hc⟩
  · rw [if_neg hok]
    have h := finishMatched_fields ep ymd st (glook g 1, st.cur_speaker, p1AltContent g)
    exact ⟨h.1, fun hc => absurd hc hok, fun _ => ⟨h.2.1, h.2.2⟩⟩

/-- The Scenario A first block, matched by Pattern 1, and its capture
groups (most recent first). -/
def demoP1Line : String := "1:05:32 - Leo Laporte: Welcome to the show."

/-- The captures Pattern 1 produces on `demoP1Line`. -/
def demoP1G : GroupMap :=
  [(3, "Welcome to the show.".data), (2, "Leo Laporte".data), (1, "1:05:32".data)]

/-- Witness for C3 (amended) at the Scenario A block. -/
theorem claim_C3_pattern1_attribution_witness :
    pyStrip demoP1Line.data = demoP1Line.data ∧
    demoP1Line.data.isEmpty = false ∧
    pyMatch patTimestampLed demoP1Line.data = some (demoP1G, []) ∧
    pyDigit (demoP1Line.data.headD ' ') = true ∧
    p1SpeakerOK demoP1G ∧
    ((segLine 100 "25-01-01".data initSeg demoP1Line.data).cur_ts = glook demoP1G 1 ∧
      (segLine 100 "25-01-01".data initSeg demoP1Line.data).cur_speaker =
        some (p1Candidate demoP1G)) := by
  have h := claim_C3_pattern1_attribution 100 "25-01-01".data initSeg demoP1Line.data
    demoP1G [] (by decide) (by decide) (by decide) (by decide)
  exact ⟨by decide, by decide, by decide, by decide, by decide,
    h.1, (h.2.1 (by decide)).1⟩

/-- Claim C7 (amended): a tag that survives to the final strip pass is
replaced by exactly one space, so it never fuses adjacent words — as
the block "a b" from `a<foo>b` shows; but tags on the fixed noise list
of line 136 (span, font, ...) are deleted outright beforehand with an
empty replacement, as the fused block "xy" from `x<font>y` shows. -/
theorem claim_C7_tag_single_space :
    (∀ pre inner post : List Char,
      (∀ c ∈ pre, ¬ c = '<') → (∀ c ∈ inner, ¬ c = '>') → inner ≠ [] →
      pySub TAG_RE (fun _ => [' ']) (pre ++ '<' :: (inner ++ '>' :: post)) =
        pre ++ ' ' :: pySub TAG_RE (fun _ => [' ']) post) ∧
    sanitize_blocks "a<foo>b" = ["a b"] ∧
    sanitize_blocks "x<font>y" = ["xy"] :=
  ⟨tagSub_step, by decide, by decide⟩

/-- Witness for C7 (amended) at the concrete tag `<foo>`. -/
theorem claim_C7_tag_single_space_witness :
    (∀ c ∈ ("a".data : List Char), ¬ c = '<') ∧
    (∀ c ∈ ("foo".data : List Char), ¬ c = '>') ∧
    ("foo".data : List Char) ≠ [] ∧
    pySub TAG_RE (fun _ => [' ']) ("a".data ++ '<' :: ("foo".data ++ '>' :: "b".data)) =
      "a".data ++ ' ' :: pySub TAG_RE (fun _ => [' ']) "b".data :=
  ⟨by decide, by decide, by decide,
    claim_C7_tag_single_space.1 "a".data "foo".data "b".data
      (by decide) (by decide) (by decide)⟩

/-- The segmenter state with an established previous speaker, for the
C3 counterexample. -/
def stPrev : SegState := ⟨none, some "Previous".data, [], none, []⟩

/-- Counterexample to C3 as stated: on the block "1:05 Hello" the rest
"Hello" contains no colon, so the claim's otherwise-branch promises an
unchanged speaker; the code instead promotes "Hello" to the new
speaker. -/
theorem claim_C3_pattern1_attribution_counterexample :
    pyMatch patTimestampLed "1:05 Hello".data =
      some ([(2, "Hello".data), (1, "1:05".data)], []) ∧
    "Hello".data.contains ':' = false ∧
    stPrev.cur_speaker = some "Previous".data ∧
    (segLine 0 "00-01-01".data stPrev "1:05 Hello".data).cur_speaker =
      some "Hello".data ∧
    (segLine 0 "00-01-01".data stPrev "1:05 Hello".data).cur_speaker ≠
      stPrev.cur_speaker := by
  refine ⟨by decide, by decide, by decide, by decide, by decide⟩

end TwitArchive


